import Mathlib

/-!
Shallow embedding of the llir/l IR construction library (packages ir and
ir/types): the type algebra with its structural/nominal equality and textual
rendering, the aggregate-type resolver, the conversion/aggregate instruction
families with their rendering, the conversion/comparison/select constant
expressions, and basic blocks.

Conventions:
  - Go panics (both explicit `panic(...)` calls and runtime faults such as a
    slice index out of range) are modelled by the `Res.crash` constructor; a
    value returned normally is `Res.ok`.  A crash is a process-fatal event in
    the source, not an error value handed to the caller.
  - Go values of interface type `types.Type` are pointers into a heap; the
    inductive `LType` represents their (finite) unfoldings, which is faithful
    whenever the heap graph is acyclic.  Cyclic graphs (a struct containing,
    through a pointer, a path back to itself) are modelled separately in the
    `Cyclic` namespace by nodes referencing each other through heap indices,
    with fuel bounding the call depth of the recursive methods.
  - `fmt.Sprintf`/`strings.Builder` output is modelled by string append in the
    order the source writes the pieces.
-/

/-- Escaped local-identifier form of a raw name.
Modelled from the spec: the identifier-escaping collaborator (enc.Local of
internal/enc) is not under src/; per the spec it yields "the escaped
local-identifier form" of the name, i.e. the name behind the local sigil. -/
def encLocal (name : String) : String := "%" ++ name

/-- Decimal rendering of an integer exactly as the fmt %d verb prints an int64
in the source (digits, with a leading minus sign when negative). -/
def intDec (i : Int) : String :=
  if i < 0 then "-" ++ Nat.repr i.natAbs else Nat.repr i.natAbs

/-- FloatKind enumerates the floating-point kinds (source: type FloatKind,
constants FloatKindHalf .. FloatKindPPCFP128). -/
inductive FloatKind where
  | half
  | float
  | double
  | x86fp80
  | fp128
  | ppcfp128
deriving DecidableEq

/-- String form of a floating-point kind (source: the stringer line comments
on the FloatKind constants). -/
def FloatKind.str : FloatKind → String
  | .half => "half"
  | .float => "float"
  | .double => "double"
  | .x86fp80 => "x86_fp80"
  | .fp128 => "fp128"
  | .ppcfp128 => "ppc_fp128"

/-- LLVM IR types (source: package types in src/ir/block.go).  One constructor
per Go struct implementing the Type interface; every variant carries its type
name alias (field Alias, empty when absent) followed by its structural
fields. -/
inductive LType where
  | void (al : String)
  | func (al : String) (retType : LType) (params : List LType) (variadic : Bool)
  | int (al : String) (bitSize : Int)
  | flt (al : String) (kind : FloatKind)
  | mmx (al : String)
  | ptr (al : String) (elemType : LType) (addrSpace : Int)
  | vec (al : String) (len : Int) (elemType : LType)
  | label (al : String)
  | token (al : String)
  | metadata (al : String)
  | arr (al : String) (len : Int) (elemType : LType)
  | strct (al : String) (packed : Bool) (fields : List LType) (opq : Bool)

/-- Alias field shared by every type variant (source: field Alias of each
types.XxxType struct). -/
def LType.aliasOf : LType → String
  | .void a | .func a _ _ _ | .int a _ | .flt a _ | .mmx a | .ptr a _ _
  | .vec a _ _ | .label a | .token a | .metadata a | .arr a _ _
  | .strct a _ _ _ => a

mutual

/-- String method shared by all type variants (source: each String method of
package types): the escaped alias when a non-empty alias is set, otherwise the
definition form. -/
def typeString (t : LType) : String :=
  if t.aliasOf ≠ "" then encLocal t.aliasOf else typeDef t
termination_by (sizeOf t, 1)

/-- Def methods of the type variants (source: each Def method of package
types), producing the LLVM syntax of the type definition. -/
def typeDef : LType → String
  | .void _ => "void"
  | .func _ retType params variadic =>
      typeString retType ++ " (" ++ String.intercalate ", " (typeStringList params) ++
        (if variadic then (if 0 < params.length then ", " else "") ++ "..." else "") ++ ")"
  | .int _ bitSize => "i" ++ intDec bitSize
  | .flt _ kind => kind.str
  | .mmx _ => "x86_mmx"
  | .ptr _ elemType addrSpace =>
      typeString elemType ++
        (if addrSpace ≠ 0 then " addrspace(" ++ intDec addrSpace ++ ")" else "") ++ "*"
  | .vec _ len elemType => "<" ++ intDec len ++ " x " ++ typeString elemType ++ ">"
  | .label _ => "label"
  | .token _ => "token"
  | .metadata _ => "metadata"
  | .arr _ len elemType => "[" ++ intDec len ++ " x " ++ typeString elemType ++ "]"
  | .strct _ packed fields opq =>
      if opq then "opaque"
      else
        (if packed then "<" else "") ++ "\x7b " ++
          String.intercalate ", " (typeStringList fields) ++ " \x7d" ++
          (if packed then ">" else "")
termination_by t => (sizeOf t, 0)

/-- String forms of a list of types, in order (source: the field/parameter
rendering loops of StructType.Def and FuncType.Def). -/
def typeStringList : List LType → List String
  | [] => []
  | t :: ts => typeString t :: typeStringList ts
termination_by ts => (sizeOf ts, 1)

end

mutual

/-- Equal methods of the type variants (source: each Equal method of package
types).  Dynamic dispatch on the receiver is the match on the first argument;
a failed type assertion on the argument yields false.  PointerType.Equal
compares rendered text (the HACK comment in the source); StructType.Equal
applies the nominal alias rule before structural comparison; IntType.Equal
compares bit sizes only, ignoring aliases. -/
def typeEqual : LType → LType → Bool
  | .void _, .void _ => true
  | .func _ r₁ ps₁ v₁, .func _ r₂ ps₂ v₂ =>
      typeEqual r₁ r₂ && ps₁.length == ps₂.length && typeListEqual ps₁ ps₂ && v₁ == v₂
  | .int _ b₁, .int _ b₂ => b₁ == b₂
  | .flt _ k₁, .flt _ k₂ => decide (k₁ = k₂)
  | .mmx _, .mmx _ => true
  | .ptr a e s, u => typeString (.ptr a e s) == typeString u
  | .vec _ l₁ e₁, .vec _ l₂ e₂ => l₁ == l₂ && typeEqual e₁ e₂
  | .label _, .label _ => true
  | .token _, .token _ => true
  | .metadata _, .metadata _ => true
  | .arr _ l₁ e₁, .arr _ l₂ e₂ => l₁ == l₂ && typeEqual e₁ e₂
  | .strct a₁ p₁ fs₁ _, .strct a₂ p₂ fs₂ _ =>
      if a₁ ≠ "" ∨ a₂ ≠ "" then a₁ == a₂
      else p₁ == p₂ && fs₁.length == fs₂.length && typeListEqual fs₁ fs₂
  | _, _ => false
termination_by t _ => (sizeOf t, 0)

/-- Pairwise Equal over field/parameter lists (source: the comparison loops of
StructType.Equal and FuncType.Equal, run after the length check). -/
def typeListEqual : List LType → List LType → Bool
  | [], [] => true
  | t :: ts, u :: us => typeEqual t u && typeListEqual ts us
  | _, _ => false
termination_by ts _ => (sizeOf ts, 1)

end

mutual

/-- Predicate used to state the structural-equality claims: every type node in
the tree carries an empty alias (a literal, unaliased type). -/
def unaliasedB : LType → Bool
  | .void a => a == ""
  | .func a r ps _ => a == "" && unaliasedB r && unaliasedList ps
  | .int a _ => a == ""
  | .flt a _ => a == ""
  | .mmx a => a == ""
  | .ptr a e _ => a == "" && unaliasedB e
  | .vec a _ e => a == "" && unaliasedB e
  | .label a => a == ""
  | .token a => a == ""
  | .metadata a => a == ""
  | .arr a _ e => a == "" && unaliasedB e
  | .strct a _ fs _ => a == "" && unaliasedList fs
termination_by t => (sizeOf t, 0)

/-- All types in a list are unaliased. -/
def unaliasedList : List LType → Bool
  | [] => true
  | t :: ts => unaliasedB t && unaliasedList ts
termination_by ts => (sizeOf ts, 1)

end

/-- Result of running a piece of Go code: a normally returned value, or a
process-fatal crash (an explicit panic or a runtime fault such as an
out-of-range slice index) carrying the panic message. -/
inductive Res (α : Type) where
  | ok (val : α)
  | crash (msg : String)

/-- Element type at the position in the aggregate type given by the indices
(source: func aggregateElemType, src/ir/block.go).  The array case consumes
one index without inspecting it; the struct case indexes Fields, which in Go
faults at runtime when the index is out of range; any other variant with
indices remaining hits the explicit panic of the default case. -/
def aggregateElemType (t : LType) (indices : List Int) : Res LType :=
  match indices with
  | [] => .ok t
  | i :: rest =>
    match t with
    | .arr _ _ elemType => aggregateElemType elemType rest
    | .strct _ _ fields _ =>
        if h : 0 ≤ i ∧ i.toNat < fields.length then
          aggregateElemType (fields.get ⟨i.toNat, h.2⟩) rest
        else .crash "index out of range"
    | _ => .crash "support for aggregate type not yet implemented"

/-- Operand of an instruction or constant expression.
Modelled from the spec: the value.Value and ir.Constant interfaces are
collaborators outside src/; per the spec an operand renders as the type-value
pair "type identifier-or-literal", so an operand is its type together with its
identifier-or-literal form. -/
structure Operand where
  typ : LType
  id : String

/-- Rendering of an operand as it is interpolated by the %v verb: the
type-value pair (source: the String methods returning "Type Ident" pairs, and
the spec's operand-rendering interface). -/
def Operand.str (v : Operand) : String := typeString v.typ ++ " " ++ v.id

/-- Metadata attachment, identified with its rendered attachment syntax.
Modelled from the spec: metadata-node representation is an external
collaborator; the renderer produces ", attachment-syntax" once per attached
item. -/
abbrev MetadataAttachment := String

/-- Append of the metadata suffixes by the rendering loop
`for _, md := range inst.Metadata { fmt.Fprintf(buf, ", %v", md) }`. -/
def mdFold (base : String) (mds : List MetadataAttachment) : String :=
  mds.foldl (fun acc md => acc ++ ", " ++ md) base

/-- Append of the index suffixes by the rendering loop
`for _, index := range inst.Indices { fmt.Fprintf(buf, ", %v", index) }`. -/
def idxFold (base : String) (indices : List Int) : String :=
  indices.foldl (fun acc i => acc ++ ", " ++ intDec i) base

/-- Rendered form of a metadata list as one string, used to state the
trailing-suffix claims: one ", attachment" piece per item, in order. -/
def mdSuffix : List MetadataAttachment → String
  | [] => ""
  | md :: mds => ", " ++ md ++ mdSuffix mds

/-- InstTrunc (source: src/ir/inst_conversion.go). -/
structure InstTrunc where
  LocalName : String
  From : Operand
  To : LType
  Metadata : List MetadataAttachment

/-- NewTrunc constructor. -/
def NewTrunc (fromOp : Operand) (toTy : LType) : InstTrunc := ⟨"", fromOp, toTy, []⟩

/-- InstTrunc.Def: `"trunc" Type Value "to" Type OptCommaSepMetadataAttachmentList`. -/
def InstTrunc.Def (inst : InstTrunc) : String :=
  mdFold ("trunc " ++ inst.From.str ++ " to " ++ typeString inst.To) inst.Metadata

/-- InstZExt (source: src/ir/inst_conversion.go). -/
structure InstZExt where
  LocalName : String
  From : Operand
  To : LType
  Metadata : List MetadataAttachment

/-- NewZExt constructor. -/
def NewZExt (fromOp : Operand) (toTy : LType) : InstZExt := ⟨"", fromOp, toTy, []⟩

/-- InstZExt.Def. -/
def InstZExt.Def (inst : InstZExt) : String :=
  mdFold ("zext " ++ inst.From.str ++ " to " ++ typeString inst.To) inst.Metadata

/-- InstSExt (source: src/ir/inst_conversion.go). -/
structure InstSExt where
  LocalName : String
  From : Operand
  To : LType
  Metadata : List MetadataAttachment

/-- NewSExt constructor. -/
def NewSExt (fromOp : Operand) (toTy : LType) : InstSExt := ⟨"", fromOp, toTy, []⟩

/-- InstSExt.Def. -/
def InstSExt.Def (inst : InstSExt) : String :=
  mdFold ("sext " ++ inst.From.str ++ " to " ++ typeString inst.To) inst.Metadata

/-- InstFPTrunc (source: src/ir/inst_conversion.go). -/
structure InstFPTrunc where
  LocalName : String
  From : Operand
  To : LType
  Metadata : List MetadataAttachment

/-- NewFPTrunc constructor. -/
def NewFPTrunc (fromOp : Operand) (toTy : LType) : InstFPTrunc := ⟨"", fromOp, toTy, []⟩

/-- InstFPTrunc.Def. -/
def InstFPTrunc.Def (inst : InstFPTrunc) : String :=
  mdFold ("fptrunc " ++ inst.From.str ++ " to " ++ typeString inst.To) inst.Metadata

/-- InstFPExt (source: src/ir/inst_conversion.go). -/
structure InstFPExt where
  LocalName : String
  From : Operand
  To : LType
  Metadata : List MetadataAttachment

/-- NewFPExt constructor. -/
def NewFPExt (fromOp : Operand) (toTy : LType) : InstFPExt := ⟨"", fromOp, toTy, []⟩

/-- InstFPExt.Def. -/
def InstFPExt.Def (inst : InstFPExt) : String :=
  mdFold ("fpext " ++ inst.From.str ++ " to " ++ typeString inst.To) inst.Metadata

/-- InstFPToUI (source: src/ir/inst_conversion.go). -/
structure InstFPToUI where
  LocalName : String
  From : Operand
  To : LType
  Metadata : List MetadataAttachment

/-- NewFPToUI constructor. -/
def NewFPToUI (fromOp : Operand) (toTy : LType) : InstFPToUI := ⟨"", fromOp, toTy, []⟩

/-- InstFPToUI.Def. -/
def InstFPToUI.Def (inst : InstFPToUI) : String :=
  mdFold ("fptoui " ++ inst.From.str ++ " to " ++ typeString inst.To) inst.Metadata

/-- InstFPToSI (source: src/ir/inst_conversion.go). -/
structure InstFPToSI where
  LocalName : String
  From : Operand
  To : LType
  Metadata : List MetadataAttachment

/-- NewFPToSI constructor. -/
def NewFPToSI (fromOp : Operand) (toTy : LType) : InstFPToSI := ⟨"", fromOp, toTy, []⟩

/-- InstFPToSI.Def. -/
def InstFPToSI.Def (inst : InstFPToSI) : String :=
  mdFold ("fptosi " ++ inst.From.str ++ " to " ++ typeString inst.To) inst.Metadata

/-- InstUIToFP (source: src/ir/inst_conversion.go). -/
structure InstUIToFP where
  LocalName : String
  From : Operand
  To : LType
  Metadata : List MetadataAttachment

/-- NewUIToFP constructor. -/
def NewUIToFP (fromOp : Operand) (toTy : LType) : InstUIToFP := ⟨"", fromOp, toTy, []⟩

/-- InstUIToFP.Def. -/
def InstUIToFP.Def (inst : InstUIToFP) : String :=
  mdFold ("uitofp " ++ inst.From.str ++ " to " ++ typeString inst.To) inst.Metadata

/-- InstSIToFP (source: src/ir/inst_conversion.go). -/
structure InstSIToFP where
  LocalName : String
  From : Operand
  To : LType
  Metadata : List MetadataAttachment

/-- NewSIToFP constructor. -/
def NewSIToFP (fromOp : Operand) (toTy : LType) : InstSIToFP := ⟨"", fromOp, toTy, []⟩

/-- InstSIToFP.Def. -/
def InstSIToFP.Def (inst : InstSIToFP) : String :=
  mdFold ("sitofp " ++ inst.From.str ++ " to " ++ typeString inst.To) inst.Metadata

/-- InstPtrToInt (source: src/ir/inst_conversion.go). -/
structure InstPtrToInt where
  LocalName : String
  From : Operand
  To : LType
  Metadata : List MetadataAttachment

/-- NewPtrToInt constructor. -/
def NewPtrToInt (fromOp : Operand) (toTy : LType) : InstPtrToInt := ⟨"", fromOp, toTy, []⟩

/-- InstPtrToInt.Def. -/
def InstPtrToInt.Def (inst : InstPtrToInt) : String :=
  mdFold ("ptrtoint " ++ inst.From.str ++ " to " ++ typeString inst.To) inst.Metadata

/-- InstIntToPtr (source: src/ir/inst_conversion.go). -/
structure InstIntToPtr where
  LocalName : String
  From : Operand
  To : LType
  Metadata : List MetadataAttachment

/-- NewIntToPtr constructor. -/
def NewIntToPtr (fromOp : Operand) (toTy : LType) : InstIntToPtr := ⟨"", fromOp, toTy, []⟩

/-- InstIntToPtr.Def. -/
def InstIntToPtr.Def (inst : InstIntToPtr) : String :=
  mdFold ("inttoptr " ++ inst.From.str ++ " to " ++ typeString inst.To) inst.Metadata

/-- InstBitCast (source: src/ir/inst_conversion.go). -/
structure InstBitCast where
  LocalName : String
  From : Operand
  To : LType
  Metadata : List MetadataAttachment

/-- NewBitCast constructor. -/
def NewBitCast (fromOp : Operand) (toTy : LType) : InstBitCast := ⟨"", fromOp, toTy, []⟩

/-- InstBitCast.Def. -/
def InstBitCast.Def (inst : InstBitCast) : String :=
  mdFold ("bitcast " ++ inst.From.str ++ " to " ++ typeString inst.To) inst.Metadata

/-- InstAddrSpaceCast (source: src/ir/inst_conversion.go). -/
structure InstAddrSpaceCast where
  LocalName : String
  From : Operand
  To : LType
  Metadata : List MetadataAttachment

/-- NewAddrSpaceCast constructor. -/
def NewAddrSpaceCast (fromOp : Operand) (toTy : LType) : InstAddrSpaceCast :=
  ⟨"", fromOp, toTy, []⟩

/-- InstAddrSpaceCast.Def. -/
def InstAddrSpaceCast.Def (inst : InstAddrSpaceCast) : String :=
  mdFold ("addrspacecast " ++ inst.From.str ++ " to " ++ typeString inst.To) inst.Metadata

/-- InstExtractValue (source: src/ir/block.go).  Typ is the lazily cached
result type. -/
structure InstExtractValue where
  LocalName : String
  X : Operand
  Indices : List Int
  Typ : Option LType
  Metadata : List MetadataAttachment

/-- NewExtractValue constructor. -/
def NewExtractValue (x : Operand) (indices : List Int) : InstExtractValue :=
  ⟨"", x, indices, none, []⟩

/-- InstExtractValue.Def:
`"extractvalue" Type Value "," IndexList OptCommaSepMetadataAttachmentList`. -/
def InstExtractValue.Def (inst : InstExtractValue) : String :=
  mdFold (idxFold ("extractvalue " ++ inst.X.str) inst.Indices) inst.Metadata

/-- InstInsertValue (source: src/ir/block.go). -/
structure InstInsertValue where
  LocalName : String
  X : Operand
  Elem : Operand
  Indices : List Int
  Typ : Option LType
  Metadata : List MetadataAttachment

/-- NewInsertValue constructor. -/
def NewInsertValue (x elemOp : Operand) (indices : List Int) : InstInsertValue :=
  ⟨"", x, elemOp, indices, none, []⟩

/-- InstInsertValue.Def:
`"insertvalue" Type Value "," Type Value "," IndexList OptCommaSepMetadataAttachmentList`. -/
def InstInsertValue.Def (inst : InstInsertValue) : String :=
  mdFold (idxFold ("insertvalue " ++ inst.X.str ++ ", " ++ inst.Elem.str) inst.Indices)
    inst.Metadata

/-- ExprTrunc (source: src/ir/inst_conversion.go, constant-expression half). -/
structure ExprTrunc where
  From : Operand
  To : LType

/-- NewTruncExpr constructor. -/
def NewTruncExpr (fromOp : Operand) (toTy : LType) : ExprTrunc := ⟨fromOp, toTy⟩

/-- ExprTrunc.Simplify: the body is `panic("not yet implemented")`. -/
def ExprTrunc.Simplify (_ : ExprTrunc) : Res Operand := .crash "not yet implemented"

/-- ExprZExt (source: src/ir/inst_conversion.go). -/
structure ExprZExt where
  From : Operand
  To : LType

/-- NewZExtExpr constructor. -/
def NewZExtExpr (fromOp : Operand) (toTy : LType) : ExprZExt := ⟨fromOp, toTy⟩

/-- ExprZExt.Simplify: `panic("not yet implemented")`. -/
def ExprZExt.Simplify (_ : ExprZExt) : Res Operand := .crash "not yet implemented"

/-- ExprSExt (source: src/ir/inst_conversion.go). -/
structure ExprSExt where
  From : Operand
  To : LType

/-- NewSExtExpr constructor. -/
def NewSExtExpr (fromOp : Operand) (toTy : LType) : ExprSExt := ⟨fromOp, toTy⟩

/-- ExprSExt.Simplify: `panic("not yet implemented")`. -/
def ExprSExt.Simplify (_ : ExprSExt) : Res Operand := .crash "not yet implemented"

/-- ExprFPTrunc (source: src/ir/inst_conversion.go). -/
structure ExprFPTrunc where
  From : Operand
  To : LType

/-- NewFPTruncExpr constructor. -/
def NewFPTruncExpr (fromOp : Operand) (toTy : LType) : ExprFPTrunc := ⟨fromOp, toTy⟩

/-- ExprFPTrunc.Simplify: `panic("not yet implemented")`. -/
def ExprFPTrunc.Simplify (_ : ExprFPTrunc) : Res Operand := .crash "not yet implemented"

/-- ExprFPExt (source: src/ir/inst_conversion.go). -/
structure ExprFPExt where
  From : Operand
  To : LType

/-- NewFPExtExpr constructor. -/
def NewFPExtExpr (fromOp : Operand) (toTy : LType) : ExprFPExt := ⟨fromOp, toTy⟩

/-- ExprFPExt.Simplify: `panic("not yet implemented")`. -/
def ExprFPExt.Simplify (_ : ExprFPExt) : Res Operand := .crash "not yet implemented"

/-- ExprFPToUI (source: src/ir/inst_conversion.go). -/
structure ExprFPToUI where
  From : Operand
  To : LType

/-- NewFPToUIExpr constructor. -/
def NewFPToUIExpr (fromOp : Operand) (toTy : LType) : ExprFPToUI := ⟨fromOp, toTy⟩

/-- ExprFPToUI.Simplify: `panic("not yet implemented")`. -/
def ExprFPToUI.Simplify (_ : ExprFPToUI) : Res Operand := .crash "not yet implemented"

/-- ExprFPToSI (source: src/ir/inst_conversion.go). -/
structure ExprFPToSI where
  From : Operand
  To : LType

/-- NewFPToSIExpr constructor. -/
def NewFPToSIExpr (fromOp : Operand) (toTy : LType) : ExprFPToSI := ⟨fromOp, toTy⟩

/-- ExprFPToSI.Simplify: `panic("not yet implemented")`. -/
def ExprFPToSI.Simplify (_ : ExprFPToSI) : Res Operand := .crash "not yet implemented"

/-- ExprUIToFP (source: src/ir/inst_conversion.go). -/
structure ExprUIToFP where
  From : Operand
  To : LType

/-- NewUIToFPExpr constructor. -/
def NewUIToFPExpr (fromOp : Operand) (toTy : LType) : ExprUIToFP := ⟨fromOp, toTy⟩

/-- ExprUIToFP.Simplify: `panic("not yet implemented")`. -/
def ExprUIToFP.Simplify (_ : ExprUIToFP) : Res Operand := .crash "not yet implemented"

/-- ExprSIToFP (source: src/ir/inst_conversion.go). -/
structure ExprSIToFP where
  From : Operand
  To : LType

/-- NewSIToFPExpr constructor. -/
def NewSIToFPExpr (fromOp : Operand) (toTy : LType) : ExprSIToFP := ⟨fromOp, toTy⟩

/-- ExprSIToFP.Simplify: `panic("not yet implemented")`. -/
def ExprSIToFP.Simplify (_ : ExprSIToFP) : Res Operand := .crash "not yet implemented"

/-- ExprPtrToInt (source: src/ir/inst_conversion.go). -/
structure ExprPtrToInt where
  From : Operand
  To : LType

/-- NewPtrToIntExpr constructor. -/
def NewPtrToIntExpr (fromOp : Operand) (toTy : LType) : ExprPtrToInt := ⟨fromOp, toTy⟩

/-- ExprPtrToInt.Simplify: `panic("not yet implemented")`. -/
def ExprPtrToInt.Simplify (_ : ExprPtrToInt) : Res Operand := .crash "not yet implemented"

/-- ExprIntToPtr (source: src/ir/inst_conversion.go). -/
structure ExprIntToPtr where
  From : Operand
  To : LType

/-- NewIntToPtrExpr constructor. -/
def NewIntToPtrExpr (fromOp : Operand) (toTy : LType) : ExprIntToPtr := ⟨fromOp, toTy⟩

/-- ExprIntToPtr.Simplify: `panic("not yet implemented")`. -/
def ExprIntToPtr.Simplify (_ : ExprIntToPtr) : Res Operand := .crash "not yet implemented"

/-- ExprBitCast (source: src/ir/inst_conversion.go). -/
structure ExprBitCast where
  From : Operand
  To : LType

/-- NewBitCastExpr constructor. -/
def NewBitCastExpr (fromOp : Operand) (toTy : LType) : ExprBitCast := ⟨fromOp, toTy⟩

/-- ExprBitCast.Simplify: `panic("not yet implemented")`. -/
def ExprBitCast.Simplify (_ : ExprBitCast) : Res Operand := .crash "not yet implemented"

/-- ExprAddrSpaceCast (source: src/ir/inst_conversion.go). -/
structure ExprAddrSpaceCast where
  From : Operand
  To : LType

/-- NewAddrSpaceCastExpr constructor. -/
def NewAddrSpaceCastExpr (fromOp : Operand) (toTy : LType) : ExprAddrSpaceCast :=
  ⟨fromOp, toTy⟩

/-- ExprAddrSpaceCast.Simplify: `panic("not yet implemented")`. -/
def ExprAddrSpaceCast.Simplify (_ : ExprAddrSpaceCast) : Res Operand :=
  .crash "not yet implemented"

/-- ExprICmp (source: src/ir/expr_other.go).  The predicate is represented by
its rendered name; enum.IPred is a collaborator outside src/. -/
structure ExprICmp where
  Pred : String
  X : Operand
  Y : Operand

/-- NewICmpExpr constructor. -/
def NewICmpExpr (pred : String) (x y : Operand) : ExprICmp := ⟨pred, x, y⟩

/-- ExprICmp.Type: the body is `panic("not yet implemented")`. -/
def ExprICmp.TypeOf (_ : ExprICmp) : Res LType := .crash "not yet implemented"

/-- ExprICmp.Ident: `"icmp" IPred "(" Type Constant "," Type Constant ")"`. -/
def ExprICmp.Ident (e : ExprICmp) : String :=
  "icmp " ++ e.Pred ++ " (" ++ e.X.str ++ ", " ++ e.Y.str ++ ")"

/-- ExprICmp.Simplify: `panic("not yet implemented")`. -/
def ExprICmp.Simplify (_ : ExprICmp) : Res Operand := .crash "not yet implemented"

/-- ExprFCmp (source: src/ir/expr_other.go). -/
structure ExprFCmp where
  Pred : String
  X : Operand
  Y : Operand

/-- NewFCmpExpr constructor. -/
def NewFCmpExpr (pred : String) (x y : Operand) : ExprFCmp := ⟨pred, x, y⟩

/-- ExprFCmp.Type: the body is `panic("not yet implemented")`. -/
def ExprFCmp.TypeOf (_ : ExprFCmp) : Res LType := .crash "not yet implemented"

/-- ExprFCmp.Ident: `"fcmp" FPred "(" Type Constant "," Type Constant ")"`. -/
def ExprFCmp.Ident (e : ExprFCmp) : String :=
  "fcmp " ++ e.Pred ++ " (" ++ e.X.str ++ ", " ++ e.Y.str ++ ")"

/-- ExprFCmp.Simplify: `panic("not yet implemented")`. -/
def ExprFCmp.Simplify (_ : ExprFCmp) : Res Operand := .crash "not yet implemented"

/-- ExprSelect (source: src/ir/expr_other.go). -/
structure ExprSelect where
  Cond : Operand
  X : Operand
  Y : Operand

/-- NewSelectExpr constructor.  The source (src/ir/expr_other.go line 103)
stores `ExprSelect{Cond: cond, X: x, Y: x}`: the y argument is unused. -/
def NewSelectExpr (cond x _y : Operand) : ExprSelect := ⟨cond, x, x⟩

/-- ExprSelect.Type: `return e.X.Type()`. -/
def ExprSelect.TypeOf (e : ExprSelect) : LType := e.X.typ

/-- ExprSelect.Ident:
`"select" "(" Type Constant "," Type Constant "," Type Constant ")"`. -/
def ExprSelect.Ident (e : ExprSelect) : String :=
  "select (" ++ e.Cond.str ++ ", " ++ e.X.str ++ ", " ++ e.Y.str ++ ")"

/-- ExprSelect.Simplify: `panic("not yet implemented")`. -/
def ExprSelect.Simplify (_ : ExprSelect) : Res Operand := .crash "not yet implemented"

/-- BasicBlock (source: src/ir/block.go).  The instruction list and terminator
are irrelevant to every claimed property and are left out of the model. -/
structure BasicBlock where
  LocalName : String

/-- NewBlock constructor: `&BasicBlock{LocalName: name}`. -/
def NewBlock (name : String) : BasicBlock := ⟨name⟩

/-- BasicBlock.Type: `return types.Label`, the label singleton (zero-value
LabelType, empty alias). -/
def BasicBlock.TypeOf (_ : BasicBlock) : LType := .label ""

/-- BasicBlock.Ident: the body is `panic("not yet implemented")`. -/
def BasicBlock.Ident (_ : BasicBlock) : Res String := .crash "not yet implemented"

/-- BasicBlock.Name: `return block.LocalName`. -/
def BasicBlock.Name (block : BasicBlock) : String := block.LocalName

/-- BasicBlock.SetName: `block.LocalName = name`. -/
def BasicBlock.SetName (block : BasicBlock) (name : String) : BasicBlock :=
  { block with LocalName := name }

/-- Last character of a string, if any.  Used to discriminate pointer
renderings (which always end in the character of a pointer mark) from the
renderings of every other unaliased variant. -/
def lastChar (s : String) : Option Char := s.data.getLast?

/-- Concrete aggregate type of the path-determinism property:
Struct of i32 and Array of 4 Struct of i8 and i16. -/
def tC7 : LType :=
  .strct "" false
    [.int "" 32, .arr "" 4 (.strct "" false [.int "" 8, .int "" 16] false)] false

namespace Cyclic

/-- Type node in a heap-graph representation of the Go types.  Go type values
are interface pointers, so a struct may contain, through a pointer, a path
back to itself; the inductive LType only captures acyclic heaps.  A node
refers to other type nodes by heap index.  Only the variants that occur on a
pointer-mediated cycle are represented: IntType, PointerType and StructType,
with the same fields as in the source. -/
inductive Node where
  | int (al : String) (bitSize : Int)
  | ptr (al : String) (elemType : Nat) (addrSpace : Int)
  | strct (al : String) (packed : Bool) (fields : List Nat) (opq : Bool)

/-- Heap of type nodes; a Go pointer is an index into it. -/
abbrev Heap := List Node

mutual

/-- Fuel-indexed String method over the heap graph (source: the String/Def
methods of IntType, PointerType and StructType).  Fuel bounds the depth of
nested method calls: the Go computation terminates exactly when some fuel
suffices, and an unbounded recursion (a stack overflow) returns none at every
fuel. -/
def renderF (h : Heap) (fuel : Nat) (i : Nat) : Option String :=
  match fuel with
  | 0 => none
  | fuel' + 1 =>
    match h[i]? with
    | none => none
    | some (.int al bitSize) =>
        some (if al ≠ "" then encLocal al else "i" ++ intDec bitSize)
    | some (.ptr al elemType addrSpace) =>
        if al ≠ "" then some (encLocal al)
        else
          match renderF h fuel' elemType with
          | none => none
          | some s =>
              some (s ++ (if addrSpace ≠ 0 then " addrspace(" ++ intDec addrSpace ++ ")"
                          else "") ++ "*")
    | some (.strct al packed fields opq) =>
        if al ≠ "" then some (encLocal al)
        else if opq then some "opaque"
        else
          match renderFields h fuel' fields with
          | none => none
          | some ss =>
              some ((if packed then "<" else "") ++ "\x7b " ++
                String.intercalate ", " ss ++ " \x7d" ++ (if packed then ">" else ""))
termination_by (fuel, 0)

/-- Fuel-indexed rendering of a struct's field list (source: the field loop of
StructType.Def). -/
def renderFields (h : Heap) (fuel : Nat) (fields : List Nat) : Option (List String) :=
  match fields with
  | [] => some []
  | f :: fs =>
    match renderF h fuel f with
    | none => none
    | some s =>
      match renderFields h fuel fs with
      | none => none
      | some ss => some (s :: ss)
termination_by (fuel, fields.length + 1)

end

mutual

/-- Fuel-indexed Equal method over the heap graph (source: IntType.Equal,
PointerType.Equal and StructType.Equal).  PointerType.Equal compares the
rendered strings of the receiver and the argument; StructType.Equal applies
the nominal alias rule, then the packed/length checks, then the field loop. -/
def equalF (h₁ h₂ : Heap) (fuel : Nat) (i j : Nat) : Option Bool :=
  match fuel with
  | 0 => none
  | fuel' + 1 =>
    match h₁[i]?, h₂[j]? with
    | some (.int _ b₁), some u =>
        some (match u with
          | .int _ b₂ => b₁ == b₂
          | _ => false)
    | some (.ptr ..), some _ =>
        match renderF h₁ fuel' i, renderF h₂ fuel' j with
        | some s₁, some s₂ => some (s₁ == s₂)
        | _, _ => none
    | some (.strct a₁ p₁ fs₁ _), some u =>
        match u with
        | .strct a₂ p₂ fs₂ _ =>
            if a₁ ≠ "" ∨ a₂ ≠ "" then some (a₁ == a₂)
            else if p₁ != p₂ then some false
            else if fs₁.length != fs₂.length then some false
            else equalListF h₁ h₂ fuel' fs₁ fs₂
        | _ => some false
    | _, _ => none
termination_by (fuel, 0)

/-- Fuel-indexed field-list comparison (source: the field loop of
StructType.Equal, which returns false at the first unequal pair). -/
def equalListF (h₁ h₂ : Heap) (fuel : Nat) (fs₁ fs₂ : List Nat) : Option Bool :=
  match fs₁, fs₂ with
  | [], [] => some true
  | f :: fs, g :: gs =>
    match equalF h₁ h₂ fuel f g with
    | none => none
    | some false => some false
    | some true => equalListF h₁ h₂ fuel fs gs
  | _, _ => some false
termination_by (fuel, fs₁.length + 1)

end

/-- First independently constructed cyclic structure with an unaliased
(literal) struct: node 0 is struct { node 1 } and node 1 is a pointer back to
node 0. -/
def hBad₁ : Heap := [.strct "" false [1] false, .ptr "" 0 0]

/-- Second, independently constructed, identical unaliased cyclic structure. -/
def hBad₂ : Heap := [.strct "" false [1] false, .ptr "" 0 0]

/-- First independently constructed cyclic structure whose struct is
identified by the alias "foo". -/
def hFoo₁ : Heap := [.strct "foo" false [1] false, .ptr "" 0 0]

/-- Second, independently constructed, identical aliased cyclic structure. -/
def hFoo₂ : Heap := [.strct "foo" false [1] false, .ptr "" 0 0]

/-- The Equal call on nodes i and j of the two heaps terminates with a defined
boolean: some call-depth bound suffices. -/
def Terminates (h₁ h₂ : Heap) (i j : Nat) : Prop :=
  ∃ fuel b, equalF h₁ h₂ fuel i j = some b

/-- The Equal call on nodes i and j never produces a defined boolean at any
call-depth bound: in Go terms, the recursion never bottoms out and the process
dies by stack overflow rather than returning. -/
def NeverTerminates (h₁ h₂ : Heap) (i j : Nat) : Prop :=
  ∀ fuel, equalF h₁ h₂ fuel i j = none

end Cyclic

/-! Helper lemmas on strings and decimal digits. -/

theorem data_ne_nil_of_ne_empty (s : String) (h : s ≠ "") : s.data ≠ [] := by
  intro hd
  exact h (by cases s; simp_all)

theorem lastChar_append (s t : String) (h : t.data ≠ []) :
    lastChar (s ++ t) = lastChar t := by
  simp [lastChar, String.data_append, List.getLast?_append_of_ne_nil _ h]

theorem digitChar_ne_star (n : Nat) (h : n < 10) : Nat.digitChar n ≠ '*' := by
  interval_cases n <;> decide

theorem toDigitsCore_ne_star (fuel : Nat) :
    ∀ (n : Nat) (ds : List Char), (∀ c ∈ ds, c ≠ '*') →
      ∀ c ∈ Nat.toDigitsCore 10 fuel n ds, c ≠ '*' := by
  induction fuel with
  | zero => intro n ds hds; simpa [Nat.toDigitsCore] using hds
  | succ fuel ih =>
    intro n ds hds
    have hcons : ∀ c ∈ Nat.digitChar (n % 10) :: ds, c ≠ '*' := by
      intro c hc
      rcases List.mem_cons.mp hc with rfl | hc
      · exact digitChar_ne_star _ (Nat.mod_lt _ (by omega))
      · exact hds c hc
    simp only [Nat.toDigitsCore]
    split
    · exact hcons
    · exact ih _ _ hcons

theorem toDigitsCore_ne_nil (fuel : Nat) :
    ∀ (n : Nat) (ds : List Char), ds ≠ [] → Nat.toDigitsCore 10 fuel n ds ≠ [] := by
  induction fuel with
  | zero => intro n ds hds; simpa [Nat.toDigitsCore] using hds
  | succ fuel ih =>
    intro n ds hds
    simp only [Nat.toDigitsCore]
    split
    · simp
    · exact ih _ _ (by simp)

theorem natRepr_ne_star (n : Nat) : ∀ c ∈ (Nat.repr n).data, c ≠ '*' := by
  have h := toDigitsCore_ne_star (n + 1) n [] (by simp)
  simpa [Nat.repr, Nat.toDigits, List.asString] using h

theorem natRepr_data_ne_nil (n : Nat) : (Nat.repr n).data ≠ [] := by
  have h : Nat.toDigitsCore 10 (n + 1) n [] ≠ [] := by
    simp only [Nat.toDigitsCore]
    split
    · simp
    · exact toDigitsCore_ne_nil _ _ _ (by simp)
  simpa [Nat.repr, Nat.toDigits, List.asString] using h

theorem intDec_data_ne_nil (i : Int) : (intDec i).data ≠ [] := by
  unfold intDec
  split
  · simp [String.data_append]
  · exact natRepr_data_ne_nil _

theorem lastChar_natRepr_ne_star (n : Nat) : lastChar (Nat.repr n) ≠ some '*' := by
  intro h
  rw [lastChar] at h
  have hmem : '*' ∈ (Nat.repr n).data := by
    obtain ⟨hne, heq⟩ := List.mem_getLast?_eq_getLast (Option.mem_def.mpr h)
    exact heq ▸ List.getLast_mem hne
  exact natRepr_ne_star n '*' hmem rfl

theorem lastChar_intDec_ne_star (i : Int) : lastChar (intDec i) ≠ some '*' := by
  unfold intDec
  split
  · rw [lastChar_append _ _ (natRepr_data_ne_nil _)]
    exact lastChar_natRepr_ne_star _
  · exact lastChar_natRepr_ne_star _

/-! Rendering discriminator: among unaliased types, exactly the pointer
renderings end in the pointer mark. -/

theorem aliasOf_empty_of_unaliased (t : LType) (h : unaliasedB t = true) :
    t.aliasOf = "" := by
  cases t <;> simp_all [unaliasedB, LType.aliasOf]

theorem typeString_eq_typeDef (t : LType) (h : unaliasedB t = true) :
    typeString t = typeDef t := by
  rw [typeString, aliasOf_empty_of_unaliased t h]
  simp

theorem lastChar_typeString_ptr (e : LType) (s : Int) :
    lastChar (typeString (.ptr "" e s)) = some '*' := by
  have h1 : typeString (.ptr "" e s) = typeDef (.ptr "" e s) := by
    simp [typeString, LType.aliasOf]
  have h2 : lastChar (typeDef (.ptr "" e s)) = some '*' := by
    simp only [typeDef]
    rw [lastChar_append _ "*" (by decide)]
    decide
  rw [h1]
  exact h2

theorem lastChar_typeString_nonptr (t : LType) (hu : unaliasedB t = true)
    (hnp : ∀ a e s, t ≠ LType.ptr a e s) : lastChar (typeString t) ≠ some '*' := by
  rw [typeString_eq_typeDef t hu]
  cases t with
  | void a => simp only [typeDef]; decide
  | func a r ps v =>
      simp only [typeDef]
      rw [lastChar_append _ ")" (by decide)]
      decide
  | int a b =>
      simp only [typeDef]
      rw [lastChar_append _ (intDec b) (intDec_data_ne_nil b)]
      exact lastChar_intDec_ne_star b
  | flt a k => simp only [typeDef]; cases k <;> decide
  | mmx a => simp only [typeDef]; decide
  | ptr a e s => exact absurd rfl (hnp a e s)
  | vec a l e =>
      simp only [typeDef]
      rw [lastChar_append _ ">" (by decide)]
      decide
  | label a => simp only [typeDef]; decide
  | token a => simp only [typeDef]; decide
  | metadata a => simp only [typeDef]; decide
  | arr a l e =>
      simp only [typeDef]
      rw [lastChar_append _ "]" (by decide)]
      decide
  | strct a p fs o =>
      simp only [typeDef]
      cases o with
      | true => simp only [if_true]; decide
      | false =>
          simp only [Bool.false_eq_true, if_false]
          cases p with
          | true =>
              simp only [if_true]
              rw [lastChar_append _ ">" (by decide)]
              decide
          | false =>
              simp only [Bool.false_eq_true, if_false, String.append_empty]
              rw [lastChar_append _ " \x7d" (by decide)]
              decide

theorem ptr_string_ne_nonptr (e : LType) (s : Int) (u : LType)
    (hu : unaliasedB u = true) (hnp : ∀ a e' s', u ≠ LType.ptr a e' s') :
    typeString (.ptr "" e s) ≠ typeString u := by
  intro h
  have h1 := lastChar_typeString_ptr e s
  rw [h] at h1
  exact lastChar_typeString_nonptr u hu hnp h1

/-! Induction principle over the nested inductive LType. -/

theorem LType.indOn (P : LType → Prop)
    (hvoid : ∀ a, P (.void a))
    (hfunc : ∀ a r ps v, P r → (∀ p ∈ ps, P p) → P (.func a r ps v))
    (hint : ∀ a b, P (.int a b))
    (hflt : ∀ a k, P (.flt a k))
    (hmmx : ∀ a, P (.mmx a))
    (hptr : ∀ a e s, P e → P (.ptr a e s))
    (hvec : ∀ a l e, P e → P (.vec a l e))
    (hlabel : ∀ a, P (.label a))
    (htoken : ∀ a, P (.token a))
    (hmeta : ∀ a, P (.metadata a))
    (harr : ∀ a l e, P e → P (.arr a l e))
    (hstrct : ∀ a p fs o, (∀ f ∈ fs, P f) → P (.strct a p fs o)) :
    ∀ t, P t
  | .void a => hvoid a
  | .func a r ps v =>
      hfunc a r ps v
        (LType.indOn P hvoid hfunc hint hflt hmmx hptr hvec hlabel htoken hmeta harr hstrct r)
        (fun p hp =>
          LType.indOn P hvoid hfunc hint hflt hmmx hptr hvec hlabel htoken hmeta harr hstrct p)
  | .int a b => hint a b
  | .flt a k => hflt a k
  | .mmx a => hmmx a
  | .ptr a e s =>
      hptr a e s
        (LType.indOn P hvoid hfunc hint hflt hmmx hptr hvec hlabel htoken hmeta harr hstrct e)
  | .vec a l e =>
      hvec a l e
        (LType.indOn P hvoid hfunc hint hflt hmmx hptr hvec hlabel htoken hmeta harr hstrct e)
  | .label a => hlabel a
  | .token a => htoken a
  | .metadata a => hmeta a
  | .arr a l e =>
      harr a l e
        (LType.indOn P hvoid hfunc hint hflt hmmx hptr hvec hlabel htoken hmeta harr hstrct e)
  | .strct a p fs o =>
      hstrct a p fs o
        (fun f hf =>
          LType.indOn P hvoid hfunc hint hflt hmmx hptr hvec hlabel htoken hmeta harr hstrct f)
termination_by t => sizeOf t
decreasing_by
  all_goals simp only [LType.func.sizeOf_spec, LType.ptr.sizeOf_spec, LType.vec.sizeOf_spec,
    LType.arr.sizeOf_spec, LType.strct.sizeOf_spec]
  all_goals first
    | omega
    | (have hlt := List.sizeOf_lt_of_mem hp; omega)
    | (have hlt := List.sizeOf_lt_of_mem hf; omega)

/-! Equal is reflexive (on every type), symmetric and transitive (on
unaliased types). -/

theorem typeListEqual_refl_of (ts : List LType)
    (ih : ∀ t ∈ ts, typeEqual t t = true) : typeListEqual ts ts = true := by
  induction ts with
  | nil => simp [typeListEqual]
  | cons t ts ihl =>
      simp only [typeListEqual, Bool.and_eq_true]
      exact ⟨ih t (List.mem_cons_self t ts),
        ihl (fun u hu => ih u (List.mem_cons_of_mem _ hu))⟩

theorem typeEqual_refl (t : LType) : typeEqual t t = true := by
  induction t using LType.indOn with
  | hvoid a => simp [typeEqual]
  | hfunc a r ps v ihr ihps => simp [typeEqual, ihr, typeListEqual_refl_of ps ihps]
  | hint a b => simp [typeEqual]
  | hflt a k => simp [typeEqual]
  | hmmx a => simp [typeEqual]
  | hptr a e s ih => simp [typeEqual]
  | hvec a l e ih => simp [typeEqual, ih]
  | hlabel a => simp [typeEqual]
  | htoken a => simp [typeEqual]
  | hmeta a => simp [typeEqual]
  | harr a l e ih => simp [typeEqual, ih]
  | hstrct a p fs o ih =>
      by_cases ha : a = ""
      · subst ha
        simp [typeEqual, typeListEqual_refl_of fs ih]
      · simp [typeEqual, ha]

theorem typeListEqual_symm_of (ts : List LType)
    (ih : ∀ t ∈ ts, ∀ u, unaliasedB t = true → unaliasedB u = true →
      typeEqual t u = true → typeEqual u t = true) :
    ∀ us, unaliasedList ts = true → unaliasedList us = true →
      typeListEqual ts us = true → typeListEqual us ts = true := by
  induction ts with
  | nil =>
      intro us _ _ h
      cases us with
      | nil => simp [typeListEqual]
      | cons u us => simp [typeListEqual] at h
  | cons t ts ihl =>
      intro us hts hus h
      cases us with
      | nil => simp [typeListEqual] at h
      | cons u us =>
          simp only [typeListEqual, Bool.and_eq_true] at h ⊢
          simp only [unaliasedList, Bool.and_eq_true] at hts hus
          exact ⟨ih t (List.mem_cons_self t ts) u hts.1 hus.1 h.1,
            ihl (fun x hx => ih x (List.mem_cons_of_mem _ hx)) us hts.2 hus.2 h.2⟩

theorem typeEqual_symm (t : LType) : ∀ u, unaliasedB t = true → unaliasedB u = true →
    typeEqual t u = true → typeEqual u t = true := by
  induction t using LType.indOn with
  | hvoid a => intro u ht hu h; cases u <;> simp_all [typeEqual]
  | hint a b => intro u ht hu h; cases u <;> simp_all [typeEqual]
  | hflt a k => intro u ht hu h; cases u <;> simp_all [typeEqual]
  | hmmx a => intro u ht hu h; cases u <;> simp_all [typeEqual]
  | hlabel a => intro u ht hu h; cases u <;> simp_all [typeEqual]
  | htoken a => intro u ht hu h; cases u <;> simp_all [typeEqual]
  | hmeta a => intro u ht hu h; cases u <;> simp_all [typeEqual]
  | hfunc a r ps v ihr ihps =>
      intro u ht hu h
      cases u
      case func a' r' ps' v' =>
        simp only [typeEqual, Bool.and_eq_true, beq_iff_eq] at h ⊢
        simp only [unaliasedB, Bool.and_eq_true, beq_iff_eq] at ht hu
        exact ⟨⟨⟨ihr r' ht.1.2 hu.1.2 h.1.1.1, h.1.1.2.symm⟩,
          typeListEqual_symm_of ps ihps ps' ht.2 hu.2 h.1.2⟩, h.2.symm⟩
      all_goals simp_all [typeEqual]
  | hptr a e s ih =>
      intro u ht hu h
      have ha : a = "" := by
        simpa [LType.aliasOf] using aliasOf_empty_of_unaliased _ ht
      subst ha
      rw [show typeEqual (.ptr "" e s) u = (typeString (.ptr "" e s) == typeString u) from
        by simp [typeEqual]] at h
      have hts : typeString (.ptr "" e s) = typeString u := beq_iff_eq.mp h
      cases u
      case ptr a' e' s' =>
        rw [show typeEqual (.ptr a' e' s') (.ptr "" e s) =
          (typeString (.ptr a' e' s') == typeString (.ptr "" e s)) from by simp [typeEqual]]
        rw [← hts]
        simp
      all_goals exact
        (ptr_string_ne_nonptr e s _ hu (fun _ _ _ hh => by cases hh) hts).elim
  | hvec a l e ih =>
      intro u ht hu h
      cases u
      case vec a' l' e' =>
        simp only [typeEqual, Bool.and_eq_true, beq_iff_eq] at h ⊢
        simp only [unaliasedB, Bool.and_eq_true] at ht hu
        exact ⟨h.1.symm, ih e' ht.2 hu.2 h.2⟩
      all_goals simp_all [typeEqual]
  | harr a l e ih =>
      intro u ht hu h
      cases u
      case arr a' l' e' =>
        simp only [typeEqual, Bool.and_eq_true, beq_iff_eq] at h ⊢
        simp only [unaliasedB, Bool.and_eq_true] at ht hu
        exact ⟨h.1.symm, ih e' ht.2 hu.2 h.2⟩
      all_goals simp_all [typeEqual]
  | hstrct a p fs o ih =>
      intro u ht hu h
      cases u
      case strct a' p' fs' o' =>
        simp only [unaliasedB, Bool.and_eq_true, beq_iff_eq] at ht hu
        obtain ⟨ha, hts⟩ := ht
        obtain ⟨ha', hus⟩ := hu
        subst ha ha'
        simp only [typeEqual, Bool.and_eq_true, beq_iff_eq, ne_eq, not_true_eq_false,
          or_self, if_false] at h ⊢
        exact ⟨⟨h.1.1.symm, h.1.2.symm⟩,
          typeListEqual_symm_of fs ih fs' hts hus h.2⟩
      all_goals simp_all [typeEqual]

theorem typeListEqual_trans_of (ts : List LType)
    (ih : ∀ t ∈ ts, ∀ u v, unaliasedB t = true → unaliasedB u = true →
      unaliasedB v = true → typeEqual t u = true → typeEqual u v = true →
      typeEqual t v = true) :
    ∀ us vs, unaliasedList ts = true → unaliasedList us = true →
      unaliasedList vs = true → typeListEqual ts us = true →
      typeListEqual us vs = true → typeListEqual ts vs = true := by
  induction ts with
  | nil =>
      intro us vs _ _ _ h1 h2
      cases us with
      | nil => exact h2
      | cons u us => simp [typeListEqual] at h1
  | cons t ts ihl =>
      intro us vs hts hus hvs h1 h2
      cases us with
      | nil => simp [typeListEqual] at h1
      | cons u us =>
          cases vs with
          | nil => simp [typeListEqual] at h2
          | cons v vs =>
              simp only [typeListEqual, Bool.and_eq_true] at h1 h2 ⊢
              simp only [unaliasedList, Bool.and_eq_true] at hts hus hvs
              exact ⟨ih t (List.mem_cons_self t ts) u v hts.1 hus.1 hvs.1 h1.1 h2.1,
                ihl (fun x hx => ih x (List.mem_cons_of_mem _ hx)) us vs
                  hts.2 hus.2 hvs.2 h1.2 h2.2⟩

set_option maxHeartbeats 2000000 in
theorem typeEqual_trans (t : LType) : ∀ u v, unaliasedB t = true →
    unaliasedB u = true → unaliasedB v = true → typeEqual t u = true →
    typeEqual u v = true → typeEqual t v = true := by
  induction t using LType.indOn with
  | hvoid a => intro u w ht hu hw h1 h2; cases u <;> cases w <;> simp_all [typeEqual]
  | hint a b => intro u w ht hu hw h1 h2; cases u <;> cases w <;> simp_all [typeEqual]
  | hflt a k => intro u w ht hu hw h1 h2; cases u <;> cases w <;> simp_all [typeEqual]
  | hmmx a => intro u w ht hu hw h1 h2; cases u <;> cases w <;> simp_all [typeEqual]
  | hlabel a => intro u w ht hu hw h1 h2; cases u <;> cases w <;> simp_all [typeEqual]
  | htoken a => intro u w ht hu hw h1 h2; cases u <;> cases w <;> simp_all [typeEqual]
  | hmeta a => intro u w ht hu hw h1 h2; cases u <;> cases w <;> simp_all [typeEqual]
  | hfunc a r ps v ihr ihps =>
      intro u w ht hu hw h1 h2
      cases u
      case func a' r' ps' v' =>
        cases w
        case func a'' r'' ps'' v'' =>
          simp only [typeEqual, Bool.and_eq_true, beq_iff_eq] at h1 h2 ⊢
          simp only [unaliasedB, Bool.and_eq_true, beq_iff_eq] at ht hu hw
          exact ⟨⟨⟨ihr r' r'' ht.1.2 hu.1.2 hw.1.2 h1.1.1.1 h2.1.1.1,
            h1.1.1.2.trans h2.1.1.2⟩,
            typeListEqual_trans_of ps ihps ps' ps'' ht.2 hu.2 hw.2 h1.1.2 h2.1.2⟩,
            h1.2.trans h2.2⟩
        all_goals simp_all [typeEqual]
      all_goals simp_all [typeEqual]
  | hptr a e s ih =>
      intro u w ht hu hw h1 h2
      have ha : a = "" := by
        simpa [LType.aliasOf] using aliasOf_empty_of_unaliased _ ht
      subst ha
      rw [show typeEqual (.ptr "" e s) u = (typeString (.ptr "" e s) == typeString u) from
        by simp [typeEqual]] at h1
      have hts1 : typeString (.ptr "" e s) = typeString u := beq_iff_eq.mp h1
      rw [show typeEqual (.ptr "" e s) w = (typeString (.ptr "" e s) == typeString w) from
        by simp [typeEqual]]
      cases u
      case ptr a' e' s' =>
        rw [show typeEqual (.ptr a' e' s') w =
          (typeString (.ptr a' e' s') == typeString w) from by simp [typeEqual]] at h2
        have hts2 := beq_iff_eq.mp h2
        rw [hts1, hts2]
        simp
      all_goals exact
        (ptr_string_ne_nonptr e s _ hu (fun _ _ _ hh => by cases hh) hts1).elim
  | hvec a l e ih =>
      intro u w ht hu hw h1 h2
      cases u
      case vec a' l' e' =>
        cases w
        case vec a'' l'' e'' =>
          simp only [typeEqual, Bool.and_eq_true, beq_iff_eq] at h1 h2 ⊢
          simp only [unaliasedB, Bool.and_eq_true] at ht hu hw
          exact ⟨h1.1.trans h2.1, ih e' e'' ht.2 hu.2 hw.2 h1.2 h2.2⟩
        all_goals simp_all [typeEqual]
      all_goals simp_all [typeEqual]
  | harr a l e ih =>
      intro u w ht hu hw h1 h2
      cases u
      case arr a' l' e' =>
        cases w
        case arr a'' l'' e'' =>
          simp only [typeEqual, Bool.and_eq_true, beq_iff_eq] at h1 h2 ⊢
          simp only [unaliasedB, Bool.and_eq_true] at ht hu hw
          exact ⟨h1.1.trans h2.1, ih e' e'' ht.2 hu.2 hw.2 h1.2 h2.2⟩
        all_goals simp_all [typeEqual]
      all_goals simp_all [typeEqual]
  | hstrct a p fs o ih =>
      intro u w ht hu hw h1 h2
      cases u
      case strct a' p' fs' o' =>
        cases w
        case strct a'' p'' fs'' o'' =>
          simp only [unaliasedB, Bool.and_eq_true, beq_iff_eq] at ht hu hw
          obtain ⟨ha, hts⟩ := ht
          obtain ⟨ha', hus⟩ := hu
          obtain ⟨ha'', hws⟩ := hw
          subst ha ha' ha''
          simp only [typeEqual, Bool.and_eq_true, beq_iff_eq, ne_eq, not_true_eq_false,
            or_self, if_false] at h1 h2 ⊢
          exact ⟨⟨h1.1.1.trans h2.1.1, h1.1.2.trans h2.1.2⟩,
            typeListEqual_trans_of fs ih fs' fs'' hts hus hws h1.2 h2.2⟩
        all_goals simp_all [typeEqual]
      all_goals simp_all [typeEqual]

/-! The rendering loops append the metadata suffixes after the base text. -/

theorem mdFold_eq (base : String) (mds : List MetadataAttachment) :
    mdFold base mds = base ++ mdSuffix mds := by
  induction mds generalizing base with
  | nil => simp [mdFold, mdSuffix]
  | cons md mds ih =>
      have h1 : mdFold base (md :: mds) = mdFold (base ++ ", " ++ md) mds := rfl
      rw [h1, ih]
      simp [mdSuffix, String.append_assoc]

/-! Divergence of rendering and equality on the unaliased cyclic heap. -/

theorem renderF_bad_none (fuel : Nat) :
    Cyclic.renderF [Cyclic.Node.strct "" false [1] false, Cyclic.Node.ptr "" 0 0] fuel 0
        = none ∧
    Cyclic.renderF [Cyclic.Node.strct "" false [1] false, Cyclic.Node.ptr "" 0 0] fuel 1
        = none := by
  induction fuel with
  | zero => exact ⟨by simp [Cyclic.renderF], by simp [Cyclic.renderF]⟩
  | succ fuel ih =>
      constructor
      · simp [Cyclic.renderF, Cyclic.renderFields, ih.2]
      · simp [Cyclic.renderF, ih.1]

theorem equalF_bad11_none (fuel : Nat) :
    Cyclic.equalF Cyclic.hBad₁ Cyclic.hBad₂ fuel 1 1 = none := by
  cases fuel with
  | zero => simp [Cyclic.equalF]
  | succ fuel =>
      simp [Cyclic.equalF, Cyclic.hBad₁, Cyclic.hBad₂, (renderF_bad_none fuel).2]

theorem equalF_bad_none (fuel : Nat) :
    Cyclic.equalF Cyclic.hBad₁ Cyclic.hBad₂ fuel 0 0 = none := by
  cases fuel with
  | zero => simp [Cyclic.equalF]
  | succ fuel =>
      have h11 := equalF_bad11_none fuel
      simp only [Cyclic.hBad₁, Cyclic.hBad₂] at h11
      simp [Cyclic.equalF, Cyclic.equalListF, Cyclic.hBad₁, Cyclic.hBad₂, h11]

/-! Claim theorems. -/

/-- C1: the claim states that an out-of-range struct field index, or indices
remaining at a non-aggregate type, make aggregateElemType signal a recoverable
MalformedAggregateAccess-class error returned to the caller, never a
process-fatal crash.  In the source both paths crash the process: the struct
case faults with an out-of-range slice index, and the non-aggregate default
case panics explicitly.  This theorem evaluates the resolver at both failing
inputs and shows the crash outcomes. -/
theorem claimC1_resolver_crashes :
    aggregateElemType (.strct "" false [.int "" 32] false) [5] =
      .crash "index out of range" ∧
    aggregateElemType (.int "" 32) [0] =
      .crash "support for aggregate type not yet implemented" :=
  ⟨rfl, rfl⟩

/-- C2: the claim states NewSelectExpr(cond, x, y) stores y as the second
operand and renders y as the third rendered operand.  The source stores
`Y: x` instead, so with x = i32 1 and y = i32 2 the built expression holds x
in its Y field and renders "select (i1 true, i32 1, i32 1)", not
"select (i1 true, i32 1, i32 2)". -/
theorem claimC2_select_expr_bug :
    (NewSelectExpr ⟨.int "" 1, "true"⟩ ⟨.int "" 32, "1"⟩ ⟨.int "" 32, "2"⟩).Y =
      ⟨.int "" 32, "1"⟩ ∧
    (NewSelectExpr ⟨.int "" 1, "true"⟩ ⟨.int "" 32, "1"⟩ ⟨.int "" 32, "2"⟩).Ident =
      "select (i1 true, i32 1, i32 1)" := by
  have hid : (NewSelectExpr ⟨.int "" 1, "true"⟩ ⟨.int "" 32, "1"⟩
      ⟨.int "" 32, "2"⟩).Ident = "select (i1 true, i32 1, i32 1)" := by
    simp only [NewSelectExpr, ExprSelect.Ident, Operand.str]
    simp [typeString, typeDef, LType.aliasOf, intDec]
    rfl
  exact ⟨rfl, hid⟩

/-- C3: the claim states Simplify is total and idempotent for every
constant-expression variant, at minimum returning the expression unchanged.
In the source every Simplify method is `panic("not yet implemented")`: for all
sixteen variants the call crashes instead of returning a Constant, so no input
can be simplified even once. -/
theorem claimC3_simplify_never_returns :
    (∀ e : ExprTrunc, e.Simplify = .crash "not yet implemented") ∧
    (∀ e : ExprZExt, e.Simplify = .crash "not yet implemented") ∧
    (∀ e : ExprSExt, e.Simplify = .crash "not yet implemented") ∧
    (∀ e : ExprFPTrunc, e.Simplify = .crash "not yet implemented") ∧
    (∀ e : ExprFPExt, e.Simplify = .crash "not yet implemented") ∧
    (∀ e : ExprFPToUI, e.Simplify = .crash "not yet implemented") ∧
    (∀ e : ExprFPToSI, e.Simplify = .crash "not yet implemented") ∧
    (∀ e : ExprUIToFP, e.Simplify = .crash "not yet implemented") ∧
    (∀ e : ExprSIToFP, e.Simplify = .crash "not yet implemented") ∧
    (∀ e : ExprPtrToInt, e.Simplify = .crash "not yet implemented") ∧
    (∀ e : ExprIntToPtr, e.Simplify = .crash "not yet implemented") ∧
    (∀ e : ExprBitCast, e.Simplify = .crash "not yet implemented") ∧
    (∀ e : ExprAddrSpaceCast, e.Simplify = .crash "not yet implemented") ∧
    (∀ e : ExprICmp, e.Simplify = .crash "not yet implemented") ∧
    (∀ e : ExprFCmp, e.Simplify = .crash "not yet implemented") ∧
    (∀ e : ExprSelect, e.Simplify = .crash "not yet implemented") :=
  ⟨fun _ => rfl, fun _ => rfl, fun _ => rfl, fun _ => rfl, fun _ => rfl, fun _ => rfl,
    fun _ => rfl, fun _ => rfl, fun _ => rfl, fun _ => rfl, fun _ => rfl, fun _ => rfl,
    fun _ => rfl, fun _ => rfl, fun _ => rfl, fun _ => rfl⟩

/-- C4: the claim states the Type operation of icmp and fcmp constant
expressions returns a boolean (or shape-matched boolean-vector) type and never
fails at call time.  In the source both Type methods are
`panic("not yet implemented")`: every call crashes. -/
theorem claimC4_cmp_type_panics :
    (∀ e : ExprICmp, e.TypeOf = .crash "not yet implemented") ∧
    (∀ e : ExprFCmp, e.TypeOf = .crash "not yet implemented") :=
  ⟨fun _ => rfl, fun _ => rfl⟩

/-- C5 counterexample: for the two independently constructed identical cyclic
structures whose struct node is unaliased (a literal struct whose single field
is a pointer back to the struct), Equal does not terminate: the struct
comparison recurses into the pointer field, PointerType.Equal renders both
sides, and rendering the unaliased cycle never reaches a base case, so no
call-depth bound returns a defined boolean. -/
theorem claimC5_counterexample :
    Cyclic.NeverTerminates Cyclic.hBad₁ Cyclic.hBad₂ 0 0 :=
  equalF_bad_none

/-- C5 amended: for the identical independently constructed cyclic structures
whose struct carries the non-empty alias "foo" (an identified struct, the
situation the source's HACK comment addresses), Equal terminates and returns
true, both on the struct nodes (by the nominal alias rule, at depth 1) and on
the pointer nodes (whose rendering stops at the alias, at depth 3). -/
theorem claimC5_amended :
    Cyclic.equalF Cyclic.hFoo₁ Cyclic.hFoo₂ 1 0 0 = some true ∧
    Cyclic.equalF Cyclic.hFoo₁ Cyclic.hFoo₂ 3 1 1 = some true ∧
    Cyclic.Terminates Cyclic.hFoo₁ Cyclic.hFoo₂ 0 0 ∧
    Cyclic.Terminates Cyclic.hFoo₁ Cyclic.hFoo₂ 1 1 := by
  have h1 : Cyclic.equalF Cyclic.hFoo₁ Cyclic.hFoo₂ 1 0 0 = some true := by
    simp [Cyclic.equalF, Cyclic.hFoo₁, Cyclic.hFoo₂]
  have h2 : Cyclic.equalF Cyclic.hFoo₁ Cyclic.hFoo₂ 3 1 1 = some true := by
    simp [Cyclic.equalF, Cyclic.renderF, Cyclic.hFoo₁, Cyclic.hFoo₂, encLocal]
  exact ⟨h1, h2, ⟨1, true, h1⟩, ⟨3, true, h2⟩⟩

/-- C6 counterexample: the claim states that for every two type nodes with
non-empty aliases, Equal is decided solely by alias equality, citing two
Integer types of equal bit-width and different aliases as unequal.  In the
source IntType.Equal compares bit sizes only, so the two differently aliased
i32 nodes compare equal. -/
theorem claimC6_counterexample :
    typeEqual (.int "a" 32) (.int "b" 32) = true := by
  simp [typeEqual]

/-- C6 amended: the nominal rule holds for struct types only: when either
struct carries a non-empty alias, Equal is alias equality regardless of
structure, and an aliased struct is never equal to an unaliased one; the
integer variant ignores aliases entirely and compares bit sizes. -/
theorem claimC6_amended :
    (∀ (a₁ a₂ : String) (p₁ p₂ : Bool) (fs₁ fs₂ : List LType) (o₁ o₂ : Bool),
      a₁ ≠ "" → a₂ ≠ "" →
      typeEqual (.strct a₁ p₁ fs₁ o₁) (.strct a₂ p₂ fs₂ o₂) = (a₁ == a₂)) ∧
    (∀ (a₁ : String) (p₁ p₂ : Bool) (fs₁ fs₂ : List LType) (o₁ o₂ : Bool),
      a₁ ≠ "" →
      typeEqual (.strct a₁ p₁ fs₁ o₁) (.strct "" p₂ fs₂ o₂) = false) ∧
    (∀ (a₁ a₂ : String) (b₁ b₂ : Int),
      typeEqual (.int a₁ b₁) (.int a₂ b₂) = (b₁ == b₂)) := by
  refine ⟨?_, ?_, ?_⟩
  · intro a₁ a₂ p₁ p₂ fs₁ fs₂ o₁ o₂ h₁ h₂
    simp [typeEqual, h₁]
  · intro a₁ p₁ p₂ fs₁ fs₂ o₁ o₂ h₁
    simp [typeEqual, h₁]
  · intro a₁ a₂ b₁ b₂
    simp [typeEqual]

/-- C6 amended witness: the amended rule evaluated at concrete inputs:
differently aliased structs unequal, same-alias structs with different field
lists equal, aliased struct not equal to unaliased struct, and differently
aliased i32 nodes nevertheless equal. -/
theorem claimC6_amended_witness :
    typeEqual (.strct "a" false [] false) (.strct "b" true [] false) = false ∧
    typeEqual (.strct "a" false [.int "" 32] false) (.strct "a" true [] true) = true ∧
    typeEqual (.strct "a" false [] false) (.strct "" false [] false) = false ∧
    typeEqual (.int "a" 32) (.int "b" 32) = true := by
  refine ⟨?_, ?_, ?_, ?_⟩
  · rw [claimC6_amended.1 "a" "b" false true [] [] false false (by decide) (by decide)]
    decide
  · rw [claimC6_amended.1 "a" "a" false true [.int "" 32] [] false true
      (by decide) (by decide)]
    decide
  · exact claimC6_amended.2.1 "a" false false [] [] false false (by decide)
  · rw [claimC6_amended.2.2 "a" "b" 32 32]
    decide

/-- C7: the aggregate resolver is path-deterministic with asymmetric index
validation: the empty path returns the base type unchanged; the array case
consumes one index without comparing it to the array length; and on
tC7 = Struct of i32 and Array(4, Struct of i8 and i16), both index paths
[1, 2, 1] and [1, 99, 1] resolve to i16. -/
theorem claimC7_resolver_paths :
    (∀ t : LType, aggregateElemType t [] = .ok t) ∧
    (∀ (al : String) (len : Int) (elemType : LType) (i : Int) (rest : List Int),
      aggregateElemType (.arr al len elemType) (i :: rest) =
        aggregateElemType elemType rest) ∧
    aggregateElemType tC7 [1, 2, 1] = .ok (.int "" 16) ∧
    aggregateElemType tC7 [1, 99, 1] = .ok (.int "" 16) :=
  ⟨fun _ => rfl, fun _ _ _ _ _ => rfl, rfl, rfl⟩

/-- C9: over unaliased (structural) finite type trees, Equal is an
equivalence relation: reflexive, symmetric and transitive, including the
pointer variant whose comparison goes through rendered text. -/
theorem claimC9_equal_equivalence :
    (∀ t : LType, unaliasedB t = true → typeEqual t t = true) ∧
    (∀ t u : LType, unaliasedB t = true → unaliasedB u = true →
      typeEqual t u = true → typeEqual u t = true) ∧
    (∀ t u v : LType, unaliasedB t = true → unaliasedB u = true →
      unaliasedB v = true → typeEqual t u = true → typeEqual u v = true →
      typeEqual t v = true) :=
  ⟨fun t _ => typeEqual_refl t, fun t u => typeEqual_symm t u,
    fun t u v => typeEqual_trans t u v⟩

/-- C9 witness: the three equivalence properties applied at concrete unaliased
trees containing a pointer: reflexivity of i8-pointer, symmetry and
transitivity across structurally equal array-of-pointer trees. -/
theorem claimC9_equal_equivalence_witness :
    typeEqual (.ptr "" (.int "" 8) 0) (.ptr "" (.int "" 8) 0) = true ∧
    typeEqual (.arr "" 4 (.ptr "" (.int "" 8) 0)) (.arr "" 4 (.ptr "" (.int "" 8) 0))
      = true := by
  have hu1 : unaliasedB (.ptr "" (.int "" 8) 0) = true := by
    simp [unaliasedB]
  have hu2 : unaliasedB (.arr "" 4 (.ptr "" (.int "" 8) 0)) = true := by
    simp [unaliasedB]
  have h1 := claimC9_equal_equivalence.1 _ hu1
  have h2 := claimC9_equal_equivalence.2.1 _ _ hu2 hu2
    (claimC9_equal_equivalence.1 _ hu2)
  have h3 := claimC9_equal_equivalence.2.2 _ _ _ hu2 hu2 hu2
    (claimC9_equal_equivalence.1 _ hu2) h2
  exact ⟨h1, h3⟩

/-- C10: for every basic block, with or without a label name, Ident panics
("not yet implemented") while Type always returns the label type and
Name/SetName operate on the stored local name. -/
theorem claimC10_block_ident_panics :
    (∀ name : String, (NewBlock name).Ident = .crash "not yet implemented") ∧
    (∀ name : String, (NewBlock name).TypeOf = .label "") ∧
    (∀ name : String, (NewBlock name).Name = name) ∧
    (∀ (block : BasicBlock) (name : String), (block.SetName name).Name = name) :=
  ⟨fun _ => rfl, fun _ => rfl, fun _ => rfl, fun _ _ => rfl⟩

/-- C8: instruction rendering fidelity: the trunc instruction on an i64
operand %x with target i32 renders exactly "trunc i64 %x to i32"; the
extractvalue instruction on %s of type Struct of i32 and i8 with index path
[1] renders exactly "extractvalue \x7b i32, i8 \x7d %s, 1"; and for every
conversion and aggregate instruction, the metadata attachments render as
trailing comma-separated suffixes in declaration order after the
metadata-free rendering. -/
theorem claimC8_instruction_rendering :
    (NewTrunc ⟨.int "" 64, "%x"⟩ (.int "" 32)).Def = "trunc i64 %x to i32" ∧
    (NewExtractValue ⟨.strct "" false [.int "" 32, .int "" 8] false, "%s"⟩ [1]).Def =
      "extractvalue \x7b i32, i8 \x7d %s, 1" ∧
    (∀ inst : InstTrunc,
      inst.Def = InstTrunc.Def { inst with Metadata := [] } ++ mdSuffix inst.Metadata) ∧
    (∀ inst : InstZExt,
      inst.Def = InstZExt.Def { inst with Metadata := [] } ++ mdSuffix inst.Metadata) ∧
    (∀ inst : InstSExt,
      inst.Def = InstSExt.Def { inst with Metadata := [] } ++ mdSuffix inst.Metadata) ∧
    (∀ inst : InstFPTrunc,
      inst.Def = InstFPTrunc.Def { inst with Metadata := [] } ++ mdSuffix inst.Metadata) ∧
    (∀ inst : InstFPExt,
      inst.Def = InstFPExt.Def { inst with Metadata := [] } ++ mdSuffix inst.Metadata) ∧
    (∀ inst : InstFPToUI,
      inst.Def = InstFPToUI.Def { inst with Metadata := [] } ++ mdSuffix inst.Metadata) ∧
    (∀ inst : InstFPToSI,
      inst.Def = InstFPToSI.Def { inst with Metadata := [] } ++ mdSuffix inst.Metadata) ∧
    (∀ inst : InstUIToFP,
      inst.Def = InstUIToFP.Def { inst with Metadata := [] } ++ mdSuffix inst.Metadata) ∧
    (∀ inst : InstSIToFP,
      inst.Def = InstSIToFP.Def { inst with Metadata := [] } ++ mdSuffix inst.Metadata) ∧
    (∀ inst : InstPtrToInt,
      inst.Def = InstPtrToInt.Def { inst with Metadata := [] } ++ mdSuffix inst.Metadata) ∧
    (∀ inst : InstIntToPtr,
      inst.Def = InstIntToPtr.Def { inst with Metadata := [] } ++ mdSuffix inst.Metadata) ∧
    (∀ inst : InstBitCast,
      inst.Def = InstBitCast.Def { inst with Metadata := [] } ++ mdSuffix inst.Metadata) ∧
    (∀ inst : InstAddrSpaceCast,
      inst.Def = InstAddrSpaceCast.Def { inst with Metadata := [] } ++
        mdSuffix inst.Metadata) ∧
    (∀ inst : InstExtractValue,
      inst.Def = InstExtractValue.Def { inst with Metadata := [] } ++
        mdSuffix inst.Metadata) ∧
    (∀ inst : InstInsertValue,
      inst.Def = InstInsertValue.Def { inst with Metadata := [] } ++
        mdSuffix inst.Metadata) := by
  refine ⟨?_, ?_, ?_, ?_, ?_, ?_, ?_, ?_, ?_, ?_, ?_, ?_, ?_, ?_, ?_, ?_, ?_⟩
  · simp only [NewTrunc, InstTrunc.Def, mdFold, Operand.str]
    simp [typeString, typeDef, LType.aliasOf, intDec]
    rfl
  · simp only [NewExtractValue, InstExtractValue.Def, mdFold, idxFold, Operand.str]
    simp [typeString, typeDef, typeStringList, LType.aliasOf, intDec]
    rfl
  · intro inst; simp [InstTrunc.Def, mdFold_eq, mdSuffix]
  · intro inst; simp [InstZExt.Def, mdFold_eq, mdSuffix]
  · intro inst; simp [InstSExt.Def, mdFold_eq, mdSuffix]
  · intro inst; simp [InstFPTrunc.Def, mdFold_eq, mdSuffix]
  · intro inst; simp [InstFPExt.Def, mdFold_eq, mdSuffix]
  · intro inst; simp [InstFPToUI.Def, mdFold_eq, mdSuffix]
  · intro inst; simp [InstFPToSI.Def, mdFold_eq, mdSuffix]
  · intro inst; simp [InstUIToFP.Def, mdFold_eq, mdSuffix]
  · intro inst; simp [InstSIToFP.Def, mdFold_eq, mdSuffix]
  · intro inst; simp [InstPtrToInt.Def, mdFold_eq, mdSuffix]
  · intro inst; simp [InstIntToPtr.Def, mdFold_eq, mdSuffix]
  · intro inst; simp [InstBitCast.Def, mdFold_eq, mdSuffix]
  · intro inst; simp [InstAddrSpaceCast.Def, mdFold_eq, mdSuffix]
  · intro inst; simp [InstExtractValue.Def, mdFold_eq, mdSuffix]
  · intro inst; simp [InstInsertValue.Def, mdFold_eq, mdSuffix]
